import Mathlib

/-!
# Verification of the TETRIS repository core

Shallow embedding of the two source variants of the game core:

* `src/unnamed/part_000` — the React/TSX variant (wall kick, ghost piece,
  level-scaled scoring).  Cells are `Option String` (`null` = empty,
  otherwise a color class token).
* `src/script.js` — the simplified variant (no wall kick, flat scoring).
  Cells are `Nat` (`0` = empty, otherwise `colorIndex + 1`).

Imperative loops are translated into structural recursions that advance the
absolute board coordinate exactly as the loop index arithmetic does; the one
loop whose termination depends on data (the bottom-up line-clearing scan of
`script.js`, whose index is re-visited after a splice) is given an explicit
fuel that is proven sufficient.
-/

namespace Tetris

/-- Embedding of `BOARD_WIDTH` from both sources. -/
def BOARD_WIDTH : Nat := 10

/-- Embedding of `BOARD_HEIGHT` from both sources. -/
def BOARD_HEIGHT : Nat := 20

/-! ## Part 1: the `part_000` (TSX) variant -/
/-- A board cell of `part_000`: `null` (= `none`) is empty, otherwise the
piece's Tailwind color class string. -/
abbrev CellT := Option String

/-- A board of `part_000`: a list of rows, each a list of cells. -/
abbrev BoardT := List (List CellT)

/-- A tetromino shape matrix (`TetrominoShape`/`Piece` in the sources):
`0` = unoccupied, non-`0` = occupied. -/
abbrev Shape := List (List Nat)

/-- Embedding of `createEmptyBoard` of `part_000`: `BOARD_HEIGHT` rows of
`BOARD_WIDTH` `null` cells. -/
def createEmptyBoard : BoardT :=
  List.replicate BOARD_HEIGHT (List.replicate BOARD_WIDTH (none : CellT))

/-- Read `boardState[newY][newX]` (total: out-of-range reads give `none`,
which the source never performs because of the preceding bounds checks). -/
def cellAtT (board : BoardT) (newY newX : Int) : CellT :=
  (board.getD newY.toNat []).getD newX.toNat none

/-- The per-cell test in the body of `checkCollision` (part_000, lines
71–82): the cell at absolute coordinate `(newX, newY)` triggers a collision
if it is out of the horizontal bounds, at or below the floor, or (only when
`newY ≥ 0`) lands on a non-empty board cell. -/
def cellHitT (board : BoardT) (newX newY : Int) : Bool :=
  newX < 0 || newX ≥ (BOARD_WIDTH : Int) || newY ≥ (BOARD_HEIGHT : Int) ||
    (newY ≥ 0 && cellAtT board newY newX != none)

/-- Inner loop of `checkCollision`: scan one shape row; `newX` is the
absolute x-coordinate of the current cell (`piecePos.x + x` advanced cell by
cell), `newY` the absolute y-coordinate of the row. -/
def rowScanT (board : BoardT) : List Nat → Int → Int → Bool
  | [], _, _ => false
  | c :: rest, newX, newY =>
    (c != 0 && cellHitT board newX newY) || rowScanT board rest (newX + 1) newY

/-- Outer loop of `checkCollision`: scan the shape rows, advancing the
absolute y-coordinate. -/
def shapeScanT (board : BoardT) : Shape → Int → Int → Bool
  | [], _, _ => false
  | row :: rest, px, newY =>
    rowScanT board row px newY || shapeScanT board rest px (newY + 1)

/-- Embedding of `checkCollision(piecePos, pieceShape, boardState)` of `part_000`
(lines 66–89), with the position passed as `(px, py)`. -/
def checkCollision (px py : Int) (shape : Shape) (board : BoardT) : Bool :=
  shapeScanT board shape px py

/-! ### Characterising the collision predicate -/
/-- The collision condition as the specification states it, for a single
occupied shape cell at relative offset `(rx, ry)`. -/
def specHit (board : BoardT) (px py : Int) (rx ry : Nat) : Prop :=
  px + rx < 0 ∨ px + rx ≥ (BOARD_WIDTH : Int) ∨ py + ry ≥ (BOARD_HEIGHT : Int) ∨
    (0 ≤ py + ry ∧ cellAtT board (py + ry) (px + rx) ≠ none)

/-- The specification's collision predicate: some occupied cell of the shape
satisfies `specHit`. -/
def collidesSpec (px py : Int) (shape : Shape) (board : BoardT) : Prop :=
  ∃ ry, ry < shape.length ∧ ∃ rx, rx < (shape.getD ry []).length ∧
    (shape.getD ry []).getD rx 0 ≠ 0 ∧ specHit board px py rx ry

/-! ## The `script.js` variant: collision -/
/-- A board cell of `script.js`: `0` is empty, otherwise `colorIndex + 1`. -/
abbrev CellJ := Nat

/-- A board of `script.js`. -/
abbrev BoardJ := List (List CellJ)

/-- Embedding of `createEmptyBoard` of `script.js`: `BOARD_HEIGHT` rows of zeros. -/
def createEmptyBoardJ : BoardJ :=
  List.replicate BOARD_HEIGHT (List.replicate BOARD_WIDTH (0 : CellJ))

/-- Read `board[newY][newX]` in the `script.js` variant. -/
def cellAtJ (board : BoardJ) (newY newX : Int) : CellJ :=
  (board.getD newY.toNat []).getD newX.toNat 0

/-- The per-cell test inside `canMove` (script.js, lines 76–87): the
disjunction whose truth makes `canMove` return `false`. -/
def cellHitJ (board : BoardJ) (newX newY : Int) : Bool :=
  newX < 0 || newX ≥ (BOARD_WIDTH : Int) || newY ≥ (BOARD_HEIGHT : Int) ||
    (newY ≥ 0 && cellAtJ board newY newX != 0)

/-- Inner loop of `canMove`, scanning one piece row (absolute coordinates
advanced like the loop indices). -/
def rowScanJ (board : BoardJ) : List Nat → Int → Int → Bool
  | [], _, _ => false
  | c :: rest, newX, newY =>
    (c != 0 && cellHitJ board newX newY) || rowScanJ board rest (newX + 1) newY

/-- Outer loop of `canMove`. -/
def shapeScanJ (board : BoardJ) : Shape → Int → Int → Bool
  | [], _, _ => false
  | row :: rest, px, newY =>
    rowScanJ board row px newY || shapeScanJ board rest px (newY + 1)

/-- Embedding of `canMove(board, piece, x, y)` of `script.js` (lines 68–91): `true` when
no occupied cell of the piece triggers the collision condition. -/
def canMove (board : BoardJ) (piece : Shape) (x y : Int) : Bool :=
  !(shapeScanJ board piece x y)

/-- The specification's per-cell collision condition for the `script.js`
cell representation. -/
def specHitJ (board : BoardJ) (px py : Int) (rx ry : Nat) : Prop :=
  px + rx < 0 ∨ px + rx ≥ (BOARD_WIDTH : Int) ∨ py + ry ≥ (BOARD_HEIGHT : Int) ∨
    (0 ≤ py + ry ∧ cellAtJ board (py + ry) (px + rx) ≠ 0)

/-- The specification's collision predicate for `script.js` boards. -/
def collidesSpecJ (px py : Int) (shape : Shape) (board : BoardJ) : Prop :=
  ∃ ry, ry < shape.length ∧ ∃ rx, rx < (shape.getD ry []).length ∧
    (shape.getD ry []).getD rx 0 ≠ 0 ∧ specHitJ board px py rx ry

/-! ## Rotation -/
/-- Embedding of `rotateMatrix(matrix)` of `part_000` (lines 91–94):
`matrix[0].map((val, index) => matrix.map((row) => row[index]).reverse())`.
Row `index` of the result is the `index`-th column of the input, reversed. -/
def rotateMatrix (matrix : Shape) : Shape :=
  (List.range (matrix.headD []).length).map
    (fun index => (matrix.map (fun row => row.getD index 0)).reverse)

/-- Embedding of `rotatePiece(piece)` of `script.js` (lines 55–66).  The source fills a
`piece[0].length × n` zero matrix with `rotated[j][n - 1 - i] = piece[i][j]`;
the closed form of the filled matrix is
`rotated[j][c] = piece[n - 1 - c][j]` (cells never written stay `0`, which
`getD`'s default reproduces). -/
def rotatePiece (piece : Shape) : Shape :=
  let n := piece.length
  (List.range (piece.headD []).length).map
    (fun j => (List.range n).map
      (fun c => (piece.getD (n - 1 - c) []).getD j 0))

/-- The rotation the specification describes: transpose the matrix, then
reverse each resulting row (a 90° clockwise turn).  Stated with the library
transpose, independently of either source. -/
def specRotateCW (matrix : Shape) : Shape :=
  (List.transpose matrix).map List.reverse

/-- The seven canonical `part_000` shapes (`TETROMINOES`, lines 11–19),
in catalogue order I, J, L, O, S, T, Z. -/
def tetrominoShapes : List Shape :=
  [ [[0, 0, 0, 0], [1, 1, 1, 1], [0, 0, 0, 0], [0, 0, 0, 0]],
    [[1, 0, 0], [1, 1, 1], [0, 0, 0]],
    [[0, 0, 1], [1, 1, 1], [0, 0, 0]],
    [[1, 1], [1, 1]],
    [[0, 1, 1], [1, 1, 0], [0, 0, 0]],
    [[0, 1, 0], [1, 1, 1], [0, 0, 0]],
    [[1, 1, 0], [0, 1, 1], [0, 0, 0]] ]

/-- The seven `part_000` color class tokens, in catalogue order. -/
def tetrominoColors : List String :=
  [ "bg-cyan-400", "bg-blue-500", "bg-orange-500", "bg-yellow-400",
    "bg-green-500", "bg-purple-500", "bg-red-500" ]

/-- The catalogue shape of the tetromino with index `i` (I, J, L, O, S, T, Z). -/
def tetroShape (i : Fin 7) : Shape := tetrominoShapes.getD i []

/-- The catalogue color of the tetromino with index `i`. -/
def tetroColor (i : Fin 7) : String := tetrominoColors.getD i ""

/-- Embedding of `PIECES` of `script.js` (lines 10–18), in order I, O, S, Z, J, L, T. -/
def PIECES : List Shape :=
  [ [[1, 1, 1, 1]],
    [[1, 1], [1, 1]],
    [[0, 1, 1], [1, 1, 0]],
    [[1, 1, 0], [0, 1, 1]],
    [[1, 0, 0], [1, 1, 1]],
    [[0, 0, 1], [1, 1, 1]],
    [[0, 1, 0], [1, 1, 1]] ]

/-- The `script.js` piece with index `i`. -/
def pieceJ (i : Fin 7) : Shape := PIECES.getD i []

/-! ## Line clearing -/
/-- Embedding of `row.every((cell) => cell !== null)` of `part_000`. -/
def rowFullT (row : List CellT) : Bool := row.all (fun cell => cell != none)

/-- An empty `part_000` row: `Array(BOARD_WIDTH).fill(null)`. -/
def emptyRowT : List CellT := List.replicate BOARD_WIDTH (none : CellT)

/-- Steps 2–3 of `processBoardUpdate` (part_000, lines 187–199): filter out
the full rows (counting them as `linesCleared` in the filter callback) and
unshift empty rows at the top until the board is `BOARD_HEIGHT` rows tall. -/
def processClear (b : BoardT) : BoardT × Nat :=
  let linesCleared := b.countP (fun row => rowFullT row)
  let finalBoard := b.filter (fun row => !rowFullT row)
  (List.replicate (BOARD_HEIGHT - finalBoard.length) emptyRowT ++ finalBoard,
    linesCleared)

/-- Embedding of `row.every((cell) => cell !== 0)` of `script.js`. -/
def rowFullJ (row : List CellJ) : Bool := row.all (fun cell => cell != 0)

/-- An empty `script.js` row: `Array(BOARD_WIDTH).fill(0)`. -/
def emptyRowJ : List CellJ := List.replicate BOARD_WIDTH (0 : CellJ)

/-- The bottom-up scan of `clearLines` (script.js, lines 119–126).  `idx`
encodes the loop variable as `i + 1`, so `idx = 0` is the exit condition
`i < 0`.  A full row `i` is spliced out and an empty row unshifted at the
top, and — because of the `i++` compensating the loop's `i--` — the same
index is examined again.  The loop's termination is data-dependent, so it
takes an explicit fuel, proven sufficient below. -/
def clearLoop : Nat → BoardJ → Nat → Nat → BoardJ × Nat
  | 0, b, _, acc => (b, acc)
  | _ + 1, b, 0, acc => (b, acc)
  | fuel + 1, b, i + 1, acc =>
    if rowFullJ (b.getD i []) then
      clearLoop fuel (emptyRowJ :: b.eraseIdx i) (i + 1) (acc + 1)
    else
      clearLoop fuel b i acc

/-- Embedding of `clearLines(board)` of `script.js` (lines 115–129): run the bottom-up
scan starting at the last row.  `2 * length + 1` fuel covers the worst case
(every row full: each row costs one clearing step plus one passing step). -/
def clearLines (b : BoardJ) : BoardJ × Nat :=
  clearLoop (2 * b.length + 1) b b.length 0

/-- A 20-row `script.js` board whose bottom row is full. -/
def bOneFullJ : BoardJ :=
  List.replicate 19 emptyRowJ ++ [List.replicate BOARD_WIDTH (1 : CellJ)]

/-! ## Locking a piece into the board

`placePiece` (script.js, lines 93–113), the merge loop of `lockPiece`
(part_000, lines 166–185) and the merge loop of `hardDrop` (part_000, lines
150–161) are the same double loop over the piece cells, writing a value into
every in-bounds board cell covered by an occupied piece cell.  The loop is
embedded generically in the cell type and written value. -/
/-- Embedding of `newBoard[r][c] = v` on a row-list board (no-op out of range, exactly
like the sources never are thanks to their bounds checks). -/
def setCell2D {α : Type} (b : List (List α)) (r c : Nat) (v : α) :
    List (List α) :=
  b.set r ((b.getD r []).set c v)

/-- The loop body: write `v` at absolute coordinate `(x, y)` when the piece
cell is occupied and the coordinate is within the fixed board bounds. -/
def writeCell {α : Type} (b : List (List α)) (cell : Nat) (x y : Int)
    (v : α) : List (List α) :=
  if cell ≠ 0 ∧ 0 ≤ y ∧ y < (BOARD_HEIGHT : Int) ∧ 0 ≤ x ∧
      x < (BOARD_WIDTH : Int) then
    setCell2D b y.toNat x.toNat v
  else b

/-- Inner loop over one piece row, advancing the absolute x-coordinate. -/
def placeRowG {α : Type} : List (List α) → List Nat → Int → Int → α →
    List (List α)
  | b, [], _, _, _ => b
  | b, cell :: rest, x, y, v => placeRowG (writeCell b cell x y v) rest (x + 1) y v

/-- Outer loop over the piece rows, advancing the absolute y-coordinate. -/
def placeG {α : Type} : List (List α) → Shape → Int → Int → α → List (List α)
  | b, [], _, _, _ => b
  | b, row :: rest, x, y, v => placeG (placeRowG b row x y v) rest x (y + 1) v

/-- Embedding of `placePiece(board, piece, x, y, color)` of `script.js`: writes
`color + 1` into the covered cells of a copy of the board. -/
def placePiece (board : BoardJ) (piece : Shape) (x y : Int) (color : Nat) :
    BoardJ :=
  placeG board piece x y (color + 1)

/-- The merge loops of `lockPiece` and `hardDrop` in `part_000`: write the
piece's color token into the covered cells of a copy of the board. -/
def lockMerge (board : BoardT) (shape : Shape) (color : String) (x y : Int) :
    BoardT :=
  placeG board shape x y (some color)

/-- Board cell `(r, c)` is covered by an in-bounds occupied cell of the
piece whose bounding box sits at `(x, y)`. -/
def coveredCell (shape : Shape) (x y : Int) (r c : Nat) : Prop :=
  (∃ i, i < shape.length ∧ (r : Int) = y + i ∧
    ∃ j, j < (shape.getD i []).length ∧
      (shape.getD i []).getD j 0 ≠ 0 ∧ (c : Int) = x + j) ∧
  r < BOARD_HEIGHT ∧ c < BOARD_WIDTH

instance coveredCellDecidable (shape : Shape) (x y : Int) (r c : Nat) :
    Decidable (coveredCell shape x y r c) := by
  unfold coveredCell
  infer_instance

/-! ## The `part_000` session state machine

The React component state (`board`, `currentPiece`, `nextPiece`, `score`,
`lines`, `level`, `gameOver`, `isPaused`, `gameStarted`) becomes an explicit
record; every handler becomes a function on it.  The random draws
(`randomTetromino()`) are injected as explicit `Fin 7` indices into the
catalogue. -/
structure Session where
  board : BoardT
  curShape : Shape
  curColor : String
  posX : Int
  posY : Int
  nextShape : Shape
  nextColor : String
  score : Nat
  lines : Nat
  level : Nat
  gameOver : Bool
  isPaused : Bool
  gameStarted : Bool
deriving DecidableEq

/-- Embedding of `scoreMultipliers` of `part_000` (line 205). -/
def scoreMultipliers : List Nat := [0, 100, 300, 500, 800]

/-- The spawn x-coordinate used in `processBoardUpdate` (part_000, line 220):
`Math.floor(BOARD_WIDTH / 2) - Math.floor(shape[0].length / 2)`. -/
def spawnX (shape : Shape) : Int :=
  ((BOARD_WIDTH / 2 : Nat) : Int) - (((shape.headD []).length / 2 : Nat) : Int)

/-- Embedding of `processBoardUpdate(nextBoardState)` of `part_000` (lines 187–230):
clear full rows, update the statistics when rows were cleared (the score
delta uses the pre-update `level`, the new level is recomputed from the
total line count), store the cleared board, then spawn the queued piece —
or transition to game over if its spawn position collides, leaving the
pieces unchanged.  `np` is the injected random draw refilling the queue. -/
def processBoardUpdate (s : Session) (nextBoardState : BoardT) (np : Fin 7) :
    Session :=
  let cleared := processClear nextBoardState
  let finalBoard := cleared.1
  let linesCleared := cleared.2
  let s1 : Session :=
    if linesCleared > 0 then
      { s with
        lines := s.lines + linesCleared
        score := s.score + scoreMultipliers.getD linesCleared 0 * s.level
        level := (s.lines + linesCleared) / 10 + 1 }
    else s
  let newX := spawnX s.nextShape
  if checkCollision newX 0 s.nextShape finalBoard then
    { s1 with board := finalBoard, gameOver := true, gameStarted := false }
  else
    { s1 with
      board := finalBoard
      curShape := s.nextShape
      curColor := s.nextColor
      posX := newX
      posY := 0
      nextShape := tetroShape np
      nextColor := tetroColor np }

/-- Embedding of `move(dirX, dirY)` of `part_000` (lines 97–106). -/
def moveOp (s : Session) (dx dy : Int) : Session :=
  if s.gameOver || s.isPaused || !s.gameStarted then s
  else
    let newX := s.posX + dx
    let newY := s.posY + dy
    if !(checkCollision newX newY s.curShape s.board) then
      { s with posX := newX, posY := newY }
    else s

/-- The wall-kick cascade inside `rotate()` (part_000, lines 110–118):
try the rotated shape in place, then shifted one column left, then one
column right, else keep everything unchanged. -/
def rotateAttempt (board : BoardT) (shape : Shape) (px py : Int) :
    Shape × Int :=
  let rotatedShape := rotateMatrix shape
  if !(checkCollision px py rotatedShape board) then (rotatedShape, px)
  else if !(checkCollision (px - 1) py rotatedShape board) then
    (rotatedShape, px - 1)
  else if !(checkCollision (px + 1) py rotatedShape board) then
    (rotatedShape, px + 1)
  else (shape, px)

/-- Embedding of `rotate()` of `part_000` (lines 108–119). -/
def rotateOp (s : Session) : Session :=
  if s.gameOver || s.isPaused || !s.gameStarted then s
  else
    let r := rotateAttempt s.board s.curShape s.posX s.posY
    { s with curShape := r.1, posX := r.2 }

/-- Embedding of `drop()` of `part_000` (lines 121–131): one gravity step, locking the
piece (then clearing and spawning) when it cannot move down. -/
def dropOp (s : Session) (np : Fin 7) : Session :=
  if s.gameOver || s.isPaused || !s.gameStarted then s
  else if !(checkCollision s.posX (s.posY + 1) s.curShape s.board) then
    { s with posY := s.posY + 1 }
  else
    processBoardUpdate s
      (lockMerge s.board s.curShape s.curColor s.posX s.posY) np

/-- The `ArrowDown` handler of `part_000` (lines 258–261): a soft drop is a
gravity step followed by an unconditional `+1` score bonus, under the key
handler's own guards. -/
def softDropOp (s : Session) (np : Fin 7) : Session :=
  if s.gameOver || !s.gameStarted then s
  else if s.isPaused then s
  else
    let s1 := dropOp s np
    { s1 with score := s1.score + 1 }

/-- Fuel that always suffices for the landing-row loop: once `y` reaches the
floor every occupied cell collides, so at most `BOARD_HEIGHT - y` downward
steps can succeed. -/
def dropFuel (y : Int) : Nat := ((BOARD_HEIGHT : Int) - y).toNat + 1

/-- The landing-row loop
`while (!checkCollision({x, y: curY + 1}, shape, board)) curY += 1`,
which appears verbatim three times in `part_000`: twice in `hardDrop`
(lines 136–138 and 146–148) and once for the ghost piece in
`getDisplayBoard` (lines 301–304). -/
def dropLoop (board : BoardT) (shape : Shape) (px : Int) :
    Nat → Int → Int
  | 0, y => y
  | fuel + 1, y =>
    if checkCollision px (y + 1) shape board then y
    else dropLoop board shape px fuel (y + 1)

/-- Embedding of `finalY` as computed by `hardDrop` (part_000, lines 145–148). -/
def hardDropFinalY (board : BoardT) (shape : Shape) (px py : Int) : Int :=
  dropLoop board shape px (dropFuel py) py

/-- Embedding of `ghostY` as computed by `getDisplayBoard` (part_000, lines 301–304). -/
def ghostRowY (board : BoardT) (shape : Shape) (px py : Int) : Int :=
  dropLoop board shape px (dropFuel py) py

/-- Embedding of `hardDrop()` of `part_000` (lines 133–164): move the piece to its
landing row, merge it there, and run the lock-and-clear pipeline. -/
def hardDropOp (s : Session) (np : Fin 7) : Session :=
  if s.gameOver || s.isPaused || !s.gameStarted then s
  else
    let finalY := hardDropFinalY s.board s.curShape s.posX s.posY
    let s1 := { s with posY := finalY }
    processBoardUpdate s1
      (lockMerge s.board s.curShape s.curColor s.posX finalY) np

/-- The `p` key handler of `part_000` (lines 271–273), under the outer
`gameOver || !gameStarted` guard of the key handler. -/
def togglePauseOp (s : Session) : Session :=
  if s.gameOver || !s.gameStarted then s
  else { s with isPaused := !s.isPaused }

/-- The initial `useState` values of `part_000` (lines 52–63): empty board,
random current piece at `(⌊W/2⌋ - 1, 0)`, random next piece, zero counters,
not started. -/
def initSession (p q : Fin 7) : Session :=
  { board := createEmptyBoard,
    curShape := tetroShape p, curColor := tetroColor p,
    posX := ((BOARD_WIDTH / 2 : Nat) : Int) - 1, posY := 0,
    nextShape := tetroShape q, nextColor := tetroColor q,
    score := 0, lines := 0, level := 1,
    gameOver := false, isPaused := false, gameStarted := false }

/-- Embedding of `startGame()` of `part_000` (lines 282–292): reset every field and set
`gameStarted`. -/
def startGame (p q : Fin 7) : Session :=
  { initSession p q with gameStarted := true }

/-- The commands and gravity ticks the session reacts to; random draws are
injected as catalogue indices. -/
inductive Cmd where
  | move (dx dy : Int)
  | rotateKey
  | tick (np : Fin 7)
  | soft (np : Fin 7)
  | hard (np : Fin 7)
  | start (p q : Fin 7)
  | pause

/-- One step of the `part_000` session state machine. -/
def step (s : Session) : Cmd → Session
  | Cmd.move dx dy => moveOp s dx dy
  | Cmd.rotateKey => rotateOp s
  | Cmd.tick np => dropOp s np
  | Cmd.soft np => softDropOp s np
  | Cmd.hard np => hardDropOp s np
  | Cmd.start p q => startGame p q
  | Cmd.pause => togglePauseOp s

/-- States of the `part_000` session reachable from some initial state by
commands and gravity ticks. -/
inductive Reachable : Session → Prop where
  | init (p q : Fin 7) : Reachable (initSession p q)
  | step (s : Session) (c : Cmd) : Reachable s → Reachable (step s c)

/-! ## The `script.js` session state machine -/
structure GameStateJS where
  board : BoardJ
  currentPiece : Shape
  currentColor : Nat
  nextPiece : Shape
  nextColor : Nat
  posX : Int
  posY : Int
  score : Nat
  lines : Nat
  level : Nat
  gameOver : Bool
  isPaused : Bool
deriving DecidableEq

/-- The `scoreIncrease` conditional chain of `moveDown` (script.js, lines
179–186): note that every count other than 1, 2 and 3 — including 0 —
falls through to `800`. -/
def scoreIncreaseJS (linesCleared : Nat) : Nat :=
  if linesCleared = 1 then 100
  else if linesCleared = 2 then 300
  else if linesCleared = 3 then 500
  else 800

/-- Embedding of `moveDown()` of `script.js` (lines 154–216).  On a blocked downward move
the piece is placed, lines are cleared, and either the game ends (keeping
`prev` unchanged except for `gameOver`) or the next piece spawns at
`(3, 0)`.  `np1`, `np2` are the two independent random draws used for the
new `nextPiece` and `nextColor`. -/
def moveDownJS (s : GameStateJS) (np1 np2 : Fin 7) : GameStateJS :=
  if s.gameOver || s.isPaused then s
  else
    let newY := s.posY + 1
    if canMove s.board s.currentPiece s.posX newY then { s with posY := newY }
    else
      let cleared := clearLines
        (placePiece s.board s.currentPiece s.posX s.posY s.currentColor)
      let newBoard := cleared.1
      let linesCleared := cleared.2
      let newLines := s.lines + linesCleared
      let newLevel := newLines / 10 + 1
      let scoreIncrease := scoreIncreaseJS linesCleared
      if !(canMove newBoard s.nextPiece 3 0) then { s with gameOver := true }
      else
        { s with
          board := newBoard
          currentPiece := s.nextPiece
          currentColor := s.nextColor
          posX := 3
          posY := 0
          score := s.score + scoreIncrease
          lines := newLines
          level := newLevel
          nextPiece := pieceJ np1
          nextColor := (np2 : Nat) }

/-- The `ArrowLeft` handler of `script.js` (lines 231–250); note the handler
guards only on `gameOver`, not on `isPaused`. -/
def moveLeftJS (s : GameStateJS) : GameStateJS :=
  if s.gameOver then s
  else if canMove s.board s.currentPiece (s.posX - 1) s.posY then
    { s with posX := s.posX - 1 }
  else s

/-- The `ArrowRight` handler of `script.js` (lines 251–270). -/
def moveRightJS (s : GameStateJS) : GameStateJS :=
  if s.gameOver then s
  else if canMove s.board s.currentPiece (s.posX + 1) s.posY then
    { s with posX := s.posX + 1 }
  else s

/-- The `ArrowUp` rotation handler of `script.js` (lines 282–301): try the
rotated piece at the unchanged position only; no wall kick. -/
def rotateKeyJS (s : GameStateJS) : GameStateJS :=
  if s.gameOver then s
  else
    let rotated := rotatePiece s.currentPiece
    if canMove s.board rotated s.posX s.posY then
      { s with currentPiece := rotated }
    else s

/-- The space-bar pause toggle of `script.js` (lines 275–281). -/
def togglePauseJS (s : GameStateJS) : GameStateJS :=
  if s.gameOver then s
  else { s with isPaused := !s.isPaused }

/-- Embedding of `resetGame()` of `script.js` (lines 312–328); also the initial
`useState` value (lines 132–148), with the two random piece/color pairs
injected. -/
def resetGameJS (c n : Fin 7) : GameStateJS :=
  { board := createEmptyBoardJ,
    currentPiece := pieceJ c, currentColor := (c : Nat),
    nextPiece := pieceJ n, nextColor := (n : Nat),
    posX := 3, posY := 0,
    score := 0, lines := 0, level := 1,
    gameOver := false, isPaused := false }

/-- The commands of the `script.js` variant. -/
inductive CmdJS where
  | left
  | right
  | down (np1 np2 : Fin 7)
  | rotateKey
  | pause
  | reset (c n : Fin 7)

/-- One step of the `script.js` state machine (gravity ticks and the
`ArrowDown` handler both call `moveDown`). -/
def stepJS (s : GameStateJS) : CmdJS → GameStateJS
  | CmdJS.left => moveLeftJS s
  | CmdJS.right => moveRightJS s
  | CmdJS.down np1 np2 => moveDownJS s np1 np2
  | CmdJS.rotateKey => rotateKeyJS s
  | CmdJS.pause => togglePauseJS s
  | CmdJS.reset c n => resetGameJS c n

/-- States of the `script.js` session reachable from an initial state. -/
inductive ReachableJS : GameStateJS → Prop where
  | init (c n : Fin 7) : ReachableJS (resetGameJS c n)
  | step (s : GameStateJS) (c : CmdJS) : ReachableJS s → ReachableJS (stepJS s c)

/-! ## Landing row characterisation -/
/-- A shape with at least one occupied cell (every catalogue shape has one;
the landing-row loops terminate only for such shapes). -/
def hasOccupied (shape : Shape) : Prop :=
  ∃ ry, ry < shape.length ∧ ∃ rx, rx < (shape.getD ry []).length ∧
    (shape.getD ry []).getD rx 0 ≠ 0

/-- A board with a single floating obstacle at row 5, column 0. -/
def bFloatT : BoardT := setCell2D createEmptyBoard 5 0 (some "bg-red-500")

/-- A `script.js` state about to lock a single cell at the bottom without
clearing any row, with a clear spawn for the next piece. -/
def cs3 : GameStateJS :=
  { board := createEmptyBoardJ
    currentPiece := [[1]], currentColor := 0
    nextPiece := pieceJ 0, nextColor := 0
    posX := 0, posY := 19
    score := 0, lines := 0, level := 1
    gameOver := false, isPaused := false }

/-! ## Rotation wall kick (claim C4) -/
/-- The wall-kick policy as the specification words it: try the rotated
shape at the unchanged position, then one column left, then one column
right, accepting the first candidate that does not collide; if all three
collide, shape and position stay unchanged. -/
def kickSpec (board : BoardT) (shape : Shape) (px py : Int) : Shape × Int :=
  let rotatedShape := rotateMatrix shape
  match [px, px - 1, px + 1].find?
      (fun c => !(checkCollision c py rotatedShape board)) with
  | some c => (rotatedShape, c)
  | none => (shape, px)

/-- A board with one occupied cell at row 5, column 5. -/
def bT4 : BoardT := setCell2D createEmptyBoard 5 5 (some "bg-red-500")

/-- A `script.js` state holding a vertical I piece hanging over the left
wall, whose rotation fits one column to the right but not in place. -/
def cs4 : GameStateJS :=
  { board := createEmptyBoardJ
    currentPiece := [[1], [1], [1], [1]], currentColor := 0
    nextPiece := pieceJ 0, nextColor := 0
    posX := -1, posY := 0
    score := 0, lines := 0, level := 1
    gameOver := false, isPaused := false }

/-- A `script.js` state whose bottom-row lock clears nothing and whose next
piece (the I piece) collides at the spawn position `(3, 0)` because cell
`(0, 3)` of the board is occupied. -/
def cs5 : GameStateJS :=
  { board := setCell2D createEmptyBoardJ 0 3 1
    currentPiece := [[1]], currentColor := 0
    nextPiece := pieceJ 0, nextColor := 0
    posX := 0, posY := 19
    score := 0, lines := 0, level := 1
    gameOver := false, isPaused := false }

/-- A 20-row board whose only occupied cell blocks the I piece's spawn row. -/
def bT5 : BoardT := setCell2D createEmptyBoard 1 3 (some "bg-cyan-400")

/-- A `script.js` state that locks at the bottom and then spawns the queued
O piece (width 2). -/
def cs8 : GameStateJS :=
  { board := createEmptyBoardJ
    currentPiece := [[1]], currentColor := 0
    nextPiece := pieceJ 1, nextColor := 1
    posX := 0, posY := 19
    score := 0, lines := 0, level := 1
    gameOver := false, isPaused := false }

/-! ## Theorems -/

theorem cellHitT_eq_true_iff (board : BoardT) (newX newY : Int) :
    cellHitT board newX newY = true ↔
      (newX < 0 ∨ newX ≥ (BOARD_WIDTH : Int) ∨ newY ≥ (BOARD_HEIGHT : Int) ∨
        (0 ≤ newY ∧ cellAtT board newY newX ≠ none)) := by
  simp [cellHitT, Bool.or_eq_true, Bool.and_eq_true, decide_eq_true_eq,
    bne_iff_ne]
  tauto

theorem rowScanT_eq_true_iff (board : BoardT) (row : List Nat) (newX newY : Int) :
    rowScanT board row newX newY = true ↔
      ∃ rx, rx < row.length ∧ row.getD rx 0 ≠ 0 ∧
        cellHitT board (newX + rx) newY = true := by
  induction row generalizing newX with
  | nil => simp [rowScanT]
  | cons c rest ih =>
    simp only [rowScanT, Bool.or_eq_true, Bool.and_eq_true, bne_iff_ne, ih]
    constructor
    · rintro (⟨hc, hhit⟩ | ⟨rx, hlt, hne, hhit⟩)
      · exact ⟨0, by simp, by simpa using hc, by simpa using hhit⟩
      · refine ⟨rx + 1, by simpa using hlt, by simpa using hne, ?_⟩
        have : newX + (rx + 1 : Nat) = newX + 1 + rx := by push_cast; ring
        rwa [this]
    · rintro ⟨rx, hlt, hne, hhit⟩
      cases rx with
      | zero => exact Or.inl ⟨by simpa using hne, by simpa using hhit⟩
      | succ rx =>
        refine Or.inr ⟨rx, by simp only [List.length_cons] at hlt; omega,
          by simpa using hne, ?_⟩
        have : newX + (rx + 1 : Nat) = newX + 1 + rx := by push_cast; ring
        rwa [this] at hhit

theorem shapeScanT_eq_true_iff (board : BoardT) (shape : Shape) (px py : Int) :
    shapeScanT board shape px py = true ↔
      ∃ ry, ry < shape.length ∧ ∃ rx, rx < (shape.getD ry []).length ∧
        (shape.getD ry []).getD rx 0 ≠ 0 ∧
        cellHitT board (px + rx) (py + ry) = true := by
  induction shape generalizing py with
  | nil => simp [shapeScanT]
  | cons row rest ih =>
    simp only [shapeScanT, Bool.or_eq_true, rowScanT_eq_true_iff, ih]
    constructor
    · rintro (⟨rx, hlt, hne, hhit⟩ | ⟨ry, hry, rx, hrx, hne, hhit⟩)
      · exact ⟨0, by simp, rx, by simpa using hlt, by simpa using hne,
          by simpa using hhit⟩
      · refine ⟨ry + 1, by simpa using hry, rx, by simpa using hrx,
          by simpa using hne, ?_⟩
        have : py + (ry + 1 : Nat) = py + 1 + ry := by push_cast; ring
        rwa [this]
    · rintro ⟨ry, hry, rx, hrx, hne, hhit⟩
      cases ry with
      | zero => exact Or.inl ⟨rx, by simpa using hrx, by simpa using hne,
          by simpa using hhit⟩
      | succ ry =>
        refine Or.inr ⟨ry, by simp only [List.length_cons] at hry; omega, rx,
          by simpa using hrx, by simpa using hne, ?_⟩
        have : py + (ry + 1 : Nat) = py + 1 + ry := by push_cast; ring
        rwa [this] at hhit

/-- The predicate `checkCollision` returns `true` exactly when the specification's
existential collision condition holds. -/
theorem checkCollision_eq_true_iff (px py : Int) (shape : Shape) (board : BoardT) :
    checkCollision px py shape board = true ↔ collidesSpec px py shape board := by
  unfold checkCollision collidesSpec specHit
  rw [shapeScanT_eq_true_iff]
  constructor <;>
    · rintro ⟨ry, hry, rx, hrx, hne, hhit⟩
      exact ⟨ry, hry, rx, hrx, hne, by
        first
          | exact (cellHitT_eq_true_iff board _ _).1 hhit
          | exact (cellHitT_eq_true_iff board _ _).2 hhit⟩

/-- For a cell above the visible board (`newY < 0`) the floor bound and the
occupancy test never fire: only the horizontal bounds can trigger. -/
theorem cellHitT_of_neg_y (board : BoardT) (newX newY : Int) (h : newY < 0) :
    cellHitT board newX newY =
      (newX < 0 || newX ≥ (BOARD_WIDTH : Int)) := by
  have h1 : ¬ (newY ≥ (BOARD_HEIGHT : Int)) := by
    simp only [BOARD_HEIGHT]; omega
  have h2 : ¬ (newY ≥ 0) := by omega
  simp [cellHitT, h1, h2]

theorem cellHitJ_eq_true_iff (board : BoardJ) (newX newY : Int) :
    cellHitJ board newX newY = true ↔
      (newX < 0 ∨ newX ≥ (BOARD_WIDTH : Int) ∨ newY ≥ (BOARD_HEIGHT : Int) ∨
        (0 ≤ newY ∧ cellAtJ board newY newX ≠ 0)) := by
  simp [cellHitJ, Bool.or_eq_true, Bool.and_eq_true, decide_eq_true_eq,
    bne_iff_ne]
  tauto

theorem rowScanJ_eq_true_iff (board : BoardJ) (row : List Nat) (newX newY : Int) :
    rowScanJ board row newX newY = true ↔
      ∃ rx, rx < row.length ∧ row.getD rx 0 ≠ 0 ∧
        cellHitJ board (newX + rx) newY = true := by
  induction row generalizing newX with
  | nil => simp [rowScanJ]
  | cons c rest ih =>
    simp only [rowScanJ, Bool.or_eq_true, Bool.and_eq_true, bne_iff_ne, ih]
    constructor
    · rintro (⟨hc, hhit⟩ | ⟨rx, hlt, hne, hhit⟩)
      · exact ⟨0, by simp, by simpa using hc, by simpa using hhit⟩
      · refine ⟨rx + 1, by simpa using hlt, by simpa using hne, ?_⟩
        have : newX + (rx + 1 : Nat) = newX + 1 + rx := by push_cast; ring
        rwa [this]
    · rintro ⟨rx, hlt, hne, hhit⟩
      cases rx with
      | zero => exact Or.inl ⟨by simpa using hne, by simpa using hhit⟩
      | succ rx =>
        refine Or.inr ⟨rx, by simp only [List.length_cons] at hlt; omega,
          by simpa using hne, ?_⟩
        have : newX + (rx + 1 : Nat) = newX + 1 + rx := by push_cast; ring
        rwa [this] at hhit

theorem shapeScanJ_eq_true_iff (board : BoardJ) (shape : Shape) (px py : Int) :
    shapeScanJ board shape px py = true ↔
      ∃ ry, ry < shape.length ∧ ∃ rx, rx < (shape.getD ry []).length ∧
        (shape.getD ry []).getD rx 0 ≠ 0 ∧
        cellHitJ board (px + rx) (py + ry) = true := by
  induction shape generalizing py with
  | nil => simp [shapeScanJ]
  | cons row rest ih =>
    simp only [shapeScanJ, Bool.or_eq_true, rowScanJ_eq_true_iff, ih]
    constructor
    · rintro (⟨rx, hlt, hne, hhit⟩ | ⟨ry, hry, rx, hrx, hne, hhit⟩)
      · exact ⟨0, by simp, rx, by simpa using hlt, by simpa using hne,
          by simpa using hhit⟩
      · refine ⟨ry + 1, by simpa using hry, rx, by simpa using hrx,
          by simpa using hne, ?_⟩
        have : py + (ry + 1 : Nat) = py + 1 + ry := by push_cast; ring
        rwa [this]
    · rintro ⟨ry, hry, rx, hrx, hne, hhit⟩
      cases ry with
      | zero => exact Or.inl ⟨rx, by simpa using hrx, by simpa using hne,
          by simpa using hhit⟩
      | succ ry =>
        refine Or.inr ⟨ry, by simp only [List.length_cons] at hry; omega, rx,
          by simpa using hrx, by simpa using hne, ?_⟩
        have : py + (ry + 1 : Nat) = py + 1 + ry := by push_cast; ring
        rwa [this] at hhit

/-- The predicate `canMove` returns `false` exactly when the specification's collision
condition holds. -/
theorem canMove_eq_false_iff (board : BoardJ) (piece : Shape) (x y : Int) :
    canMove board piece x y = false ↔ collidesSpecJ x y piece board := by
  unfold canMove collidesSpecJ specHitJ
  rw [Bool.not_eq_false']
  rw [shapeScanJ_eq_true_iff]
  constructor <;>
    · rintro ⟨ry, hry, rx, hrx, hne, hhit⟩
      exact ⟨ry, hry, rx, hrx, hne, by
        first
          | exact (cellHitJ_eq_true_iff board _ _).1 hhit
          | exact (cellHitJ_eq_true_iff board _ _).2 hhit⟩

/-- C6: For every shape matrix in the piece catalogue, the rotation function
(`rotateMatrix` in `part_000`, `rotatePiece` in `script.js`) equals
transposing the matrix and then reversing each resulting row (a 90° clockwise
turn), and applying the rotation function four times in succession returns a
matrix equal to the original shape. -/
theorem C6_rotation_is_clockwise_and_order_four :
    (∀ s ∈ tetrominoShapes,
        rotateMatrix s = specRotateCW s ∧
        rotateMatrix (rotateMatrix (rotateMatrix (rotateMatrix s))) = s) ∧
    (∀ p ∈ PIECES,
        rotatePiece p = specRotateCW p ∧
        rotatePiece (rotatePiece (rotatePiece (rotatePiece p))) = p) := by
  decide

theorem rowFullJ_emptyRowJ : rowFullJ emptyRowJ = false := by decide

theorem drop_append_eq {α : Type} (l₁ l₂ : List α) (i : Nat)
    (h : l₁.length = i) : (l₁ ++ l₂).drop i = l₂ := by
  subst h; exact List.drop_left l₁ l₂

theorem take_append_eq {α : Type} (l₁ l₂ : List α) (i : Nat)
    (h : l₁.length = i) : (l₁ ++ l₂).take i = l₁ := by
  subst h; exact List.take_left l₁ l₂

theorem clearLoop_spec :
    ∀ (fuel : Nat) (b : BoardJ) (idx acc : Nat),
      idx ≤ b.length →
      (∀ r ∈ b.drop idx, rowFullJ r = false) →
      idx + (b.take idx).countP (fun r => rowFullJ r) + 1 ≤ fuel →
      clearLoop fuel b idx acc =
        (List.replicate (b.countP (fun r => rowFullJ r)) emptyRowJ ++
           b.filter (fun r => !rowFullJ r),
         acc + b.countP (fun r => rowFullJ r)) := by
  intro fuel
  induction fuel with
  | zero => intro b idx acc _ _ hfuel; omega
  | succ fuel ih =>
    intro b idx acc hlen hinv hfuel
    match idx with
    | 0 =>
      have hall : ∀ r ∈ b, rowFullJ r = false := by simpa using hinv
      have hcount : b.countP (fun r => rowFullJ r) = 0 :=
        List.countP_eq_zero.2 (by intro a ha; simp [hall a ha])
      have hfilter : b.filter (fun r => !rowFullJ r) = b :=
        List.filter_eq_self.2 (by intro a ha; simp [hall a ha])
      simp [clearLoop, hcount, hfilter]
    | i + 1 =>
      have hi : i < b.length := hlen
      have hgd : b.getD i [] = b[i] := List.getD_eq_getElem b [] hi
      have hdrop : b.drop i = b[i] :: b.drop (i + 1) :=
        List.drop_eq_getElem_cons hi
      have htake : b.take (i + 1) = b.take i ++ [b[i]] := by
        rw [List.take_succ]
        simp [List.getElem?_eq_getElem hi]
      have htakelen : (b.take i).length = i := by
        simp [List.length_take, Nat.min_eq_left (Nat.le_of_lt hi)]
      have hsplit : b = b.take i ++ b[i] :: b.drop (i + 1) := by
        conv_lhs => rw [← List.take_append_drop i b]
        rw [hdrop]
      by_cases hfull : rowFullJ b[i] = true
      · -- row `i` is full: splice it out, unshift an empty row, stay at `i`
        rw [clearLoop, hgd, if_pos hfull]
        have herase : b.eraseIdx i = b.take i ++ b.drop (i + 1) :=
          List.eraseIdx_eq_take_drop_succ b i
        have heraselen : (b.eraseIdx i).length = b.length - 1 := by
          rw [List.length_eraseIdx, if_pos hi]
        set b' : BoardJ := emptyRowJ :: b.eraseIdx i with hb'
        have hlen' : i + 1 ≤ b'.length := by
          simp only [hb', List.length_cons, heraselen]; omega
        have hdropb' : b'.drop (i + 1) = b.drop (i + 1) := by
          have h1 : b'.drop (i + 1) = (b.eraseIdx i).drop i := by
            simp [hb', List.drop_succ_cons]
          rw [h1, herase, drop_append_eq _ _ _ htakelen]
        have hinv' : ∀ r ∈ b'.drop (i + 1), rowFullJ r = false := by
          intro r hr
          exact hinv r (hdropb' ▸ hr)
        have hcount_take : (b.take (i + 1)).countP (fun r => rowFullJ r) =
            (b.take i).countP (fun r => rowFullJ r) + 1 := by
          rw [htake, List.countP_append]
          simp [List.countP_cons, hfull]
        have htake' : b'.take (i + 1) = emptyRowJ :: b.take i := by
          simp only [hb', List.take_succ_cons, herase]
          rw [take_append_eq _ _ _ htakelen]
        have hfuel' : (i + 1) + (b'.take (i + 1)).countP (fun r => rowFullJ r)
            + 1 ≤ fuel := by
          have h2 : (b'.take (i + 1)).countP (fun r => rowFullJ r) =
              (b.take i).countP (fun r => rowFullJ r) := by
            rw [htake', List.countP_cons, rowFullJ_emptyRowJ]
            simp
          rw [h2]
          rw [hcount_take] at hfuel
          omega
        rw [ih b' (i + 1) (acc + 1) hlen' hinv' hfuel']
        -- relate the counts and filters of `b'` and `b`
        have hcb : b.countP (fun r => rowFullJ r) =
            (b.take i).countP (fun r => rowFullJ r) + 1 +
              (b.drop (i + 1)).countP (fun r => rowFullJ r) := by
          conv_lhs => rw [hsplit]
          rw [List.countP_append, List.countP_cons]
          simp [hfull]; omega
        have hcb' : b'.countP (fun r => rowFullJ r) =
            b.countP (fun r => rowFullJ r) - 1 := by
          simp only [hb', List.countP_cons, rowFullJ_emptyRowJ, herase,
            List.countP_append]
          rw [hcb]; simp
        have hfb : b.filter (fun r => !rowFullJ r) =
            (b.take i).filter (fun r => !rowFullJ r) ++
              (b.drop (i + 1)).filter (fun r => !rowFullJ r) := by
          conv_lhs => rw [hsplit]
          rw [List.filter_append, List.filter_cons]
          simp [hfull]
        have hfb' : b'.filter (fun r => !rowFullJ r) =
            emptyRowJ :: b.filter (fun r => !rowFullJ r) := by
          simp only [hb', herase, List.filter_cons, List.filter_append,
            rowFullJ_emptyRowJ]
          rw [hfb]; simp
        rw [hcb', hfb']
        have hkpos : 1 ≤ b.countP (fun r => rowFullJ r) := by rw [hcb]; omega
        rw [Prod.mk.injEq]
        constructor
        · conv_rhs => rw [show b.countP (fun r => rowFullJ r) =
            (b.countP (fun r => rowFullJ r) - 1) + 1 by omega]
          rw [List.replicate_succ', List.append_assoc, List.singleton_append]
        · omega
      · -- row `i` is not full: step the index down
        have hfull' : rowFullJ b[i] = false := by
          cases h : rowFullJ b[i] with
          | true => exact absurd h hfull
          | false => rfl
        rw [clearLoop, hgd, if_neg (by simp [hfull'])]
        have hinv' : ∀ r ∈ b.drop i, rowFullJ r = false := by
          intro r hr
          rw [hdrop] at hr
          rcases List.mem_cons.1 hr with rfl | hr'
          · exact hfull'
          · exact hinv r hr'
        have hfuel' : i + (b.take i).countP (fun r => rowFullJ r) + 1 ≤ fuel := by
          have : (b.take i).countP (fun r => rowFullJ r) ≤
              (b.take (i + 1)).countP (fun r => rowFullJ r) := by
            rw [htake, List.countP_append]; omega
          omega
        exact ih b i acc (Nat.le_of_lt hi) hinv' hfuel'

/-- The function `clearLines` always produces the `linesCleared` empty rows prepended to
the non-full rows in their original order, for any input board. -/
theorem clearLines_eq (b : BoardJ) :
    clearLines b =
      (List.replicate (b.countP (fun r => rowFullJ r)) emptyRowJ ++
         b.filter (fun r => !rowFullJ r),
       b.countP (fun r => rowFullJ r)) := by
  have h := clearLoop_spec (2 * b.length + 1) b b.length 0
    (Nat.le_refl _) (by simp)
    (by
      have h1 : (b.take b.length).countP (fun r => rowFullJ r) ≤ b.length := by
        rw [List.take_length]
        exact List.countP_le_length _
      omega)
  simpa [clearLines] using h

/-- The non-full rows number `length - countP full`. -/
theorem length_filter_not_full (b : BoardJ) :
    (b.filter (fun r => !rowFullJ r)).length =
      b.length - b.countP (fun r => rowFullJ r) := by
  rw [← List.countP_eq_length_filter]
  have := List.length_eq_countP_add_countP (fun r => rowFullJ r) (l := b)
  have heq : b.countP (fun a => decide ¬rowFullJ a = true) =
      b.countP (fun r => !rowFullJ r) := by
    apply List.countP_congr
    intro a _
    cases h : rowFullJ a <;> simp [h]
  omega

/-- Likewise for the `part_000` cell representation. -/
theorem length_filter_not_fullT (b : BoardT) :
    (b.filter (fun r => !rowFullT r)).length =
      b.length - b.countP (fun r => rowFullT r) := by
  rw [← List.countP_eq_length_filter]
  have := List.length_eq_countP_add_countP (fun r => rowFullT r) (l := b)
  have heq : b.countP (fun a => decide ¬rowFullT a = true) =
      b.countP (fun r => !rowFullT r) := by
    apply List.countP_congr
    intro a _
    cases h : rowFullT a <;> simp [h]
  omega

/-- The function `clearLines` preserves the row count. -/
theorem clearLines_length (b : BoardJ) :
    (clearLines b).1.length = b.length := by
  rw [clearLines_eq]
  have hk := List.countP_le_length (fun r => rowFullJ r) (l := b)
  simp [length_filter_not_full]
  omega

theorem countP_zero_filter_self_T (b : BoardT)
    (h : b.countP (fun r => rowFullT r) = 0) :
    b.filter (fun r => !rowFullT r) = b := by
  apply List.filter_eq_self.2
  intro a ha
  have := List.countP_eq_zero.1 h a ha
  simpa using this

theorem countP_zero_filter_self_J (b : BoardJ)
    (h : b.countP (fun r => rowFullJ r) = 0) :
    b.filter (fun r => !rowFullJ r) = b := by
  apply List.filter_eq_self.2
  intro a ha
  have := List.countP_eq_zero.1 h a ha
  simpa using this

/-- C2: For every board with exactly 20 rows, the clear step (both the
`filter`/`unshift` pipeline of `part_000` and the splice/unshift loop of
`script.js`) removes exactly the full rows, returns their count as
`linesCleared`, and produces `linesCleared` empty rows prepended to the
non-full rows in their original relative order, with the row count restored
to 20; when no row is full it returns the input board unchanged with
`linesCleared = 0`. -/
theorem C2_clear_step :
    (∀ b : BoardT, b.length = BOARD_HEIGHT →
      processClear b =
        (List.replicate (b.countP (fun r => rowFullT r)) emptyRowT ++
           b.filter (fun r => !rowFullT r),
         b.countP (fun r => rowFullT r)) ∧
      (processClear b).1.length = BOARD_HEIGHT ∧
      (b.countP (fun r => rowFullT r) = 0 → processClear b = (b, 0))) ∧
    (∀ b : BoardJ, b.length = BOARD_HEIGHT →
      clearLines b =
        (List.replicate (b.countP (fun r => rowFullJ r)) emptyRowJ ++
           b.filter (fun r => !rowFullJ r),
         b.countP (fun r => rowFullJ r)) ∧
      (clearLines b).1.length = BOARD_HEIGHT ∧
      (b.countP (fun r => rowFullJ r) = 0 → clearLines b = (b, 0))) := by
  constructor
  · intro b hb
    have hk : b.countP (fun r => rowFullT r) ≤ BOARD_HEIGHT := by
      have := List.countP_le_length (fun r => rowFullT r) (l := b)
      omega
    have hflen : (b.filter (fun r => !rowFullT r)).length =
        BOARD_HEIGHT - b.countP (fun r => rowFullT r) := by
      rw [length_filter_not_fullT, hb]
    have hpad : BOARD_HEIGHT - (b.filter (fun r => !rowFullT r)).length =
        b.countP (fun r => rowFullT r) := by
      rw [hflen]; omega
    have heq : processClear b =
        (List.replicate (b.countP (fun r => rowFullT r)) emptyRowT ++
           b.filter (fun r => !rowFullT r),
         b.countP (fun r => rowFullT r)) := by
      simp only [processClear, hpad]
    refine ⟨heq, ?_, ?_⟩
    · rw [heq]
      simp only [List.length_append, List.length_replicate, hflen]
      omega
    · intro h0
      rw [heq, h0, countP_zero_filter_self_T b h0]
      simp
  · intro b hb
    have hk : b.countP (fun r => rowFullJ r) ≤ BOARD_HEIGHT := by
      have := List.countP_le_length (fun r => rowFullJ r) (l := b)
      omega
    refine ⟨clearLines_eq b, ?_, ?_⟩
    · rw [clearLines_length, hb]
    · intro h0
      rw [clearLines_eq, h0, countP_zero_filter_self_J b h0]
      simp

/-- Concrete instance of `C2_clear_step`: the empty `part_000` board clears
zero rows unchanged, and a `script.js` board with one full bottom row clears
exactly that row and compacts back to the empty board. -/
theorem C2_clear_step_witness :
    processClear createEmptyBoard = (createEmptyBoard, 0) ∧
    clearLines bOneFullJ = (createEmptyBoardJ, 1) := by
  constructor
  · exact (C2_clear_step.1 createEmptyBoard (by decide)).2.2 (by decide)
  · have h := (C2_clear_step.2 bOneFullJ (by decide)).1
    rw [h]
    decide

theorem setCell2D_length {α : Type} (b : List (List α)) (r c : Nat) (v : α) :
    (setCell2D b r c v).length = b.length :=
  List.length_set b r _

theorem writeCell_length {α : Type} (b : List (List α)) (cell : Nat)
    (x y : Int) (v : α) : (writeCell b cell x y v).length = b.length := by
  unfold writeCell
  split <;> simp [setCell2D_length]

theorem placeRowG_length {α : Type} (row : List Nat) (b : List (List α))
    (x y : Int) (v : α) : (placeRowG b row x y v).length = b.length := by
  induction row generalizing b x with
  | nil => rfl
  | cons cell rest ih => rw [placeRowG, ih, writeCell_length]

theorem placeG_length {α : Type} (shape : Shape) (b : List (List α))
    (x y : Int) (v : α) : (placeG b shape x y v).length = b.length := by
  induction shape generalizing b y with
  | nil => rfl
  | cons row rest ih => rw [placeG, ih, placeRowG_length]

theorem setCell2D_row_length {α : Type} (b : List (List α)) (r c : Nat)
    (v : α) (i : Nat) :
    ((setCell2D b r c v).getD i []).length = (b.getD i []).length := by
  unfold setCell2D
  by_cases hi : i < b.length
  · by_cases hri : r = i
    · subst hri
      rw [List.getD_eq_getElem _ [] (by simpa [List.length_set] using hi),
        List.getElem_set_self, List.length_set]
    · rw [List.getD_eq_getElem _ [] (by simpa [List.length_set] using hi),
        List.getElem_set_ne hri, ← List.getD_eq_getElem b [] hi]
  · rw [List.getD_eq_default _ [] (by simpa [List.length_set] using Nat.le_of_not_lt hi),
      List.getD_eq_default _ [] (Nat.le_of_not_lt hi)]

theorem writeCell_row_length {α : Type} (b : List (List α)) (cell : Nat)
    (x y : Int) (v : α) (i : Nat) :
    ((writeCell b cell x y v).getD i []).length = (b.getD i []).length := by
  unfold writeCell
  split
  · exact setCell2D_row_length b y.toNat x.toNat v i
  · rfl

theorem placeRowG_row_length {α : Type} (row : List Nat) (b : List (List α))
    (x y : Int) (v : α) (i : Nat) :
    ((placeRowG b row x y v).getD i []).length = (b.getD i []).length := by
  induction row generalizing b x with
  | nil => rfl
  | cons cell rest ih => rw [placeRowG, ih, writeCell_row_length]

theorem placeG_row_length {α : Type} (shape : Shape) (b : List (List α))
    (x y : Int) (v : α) (i : Nat) :
    ((placeG b shape x y v).getD i []).length = (b.getD i []).length := by
  induction shape generalizing b y with
  | nil => rfl
  | cons row rest ih => rw [placeG, ih, placeRowG_row_length]

theorem setCell2D_getD {α : Type} (b : List (List α)) (rr cc : Nat) (v d : α)
    (r c : Nat) (hr : r < b.length) :
    ((setCell2D b rr cc v).getD r []).getD c d =
      if r = rr ∧ c = cc ∧ cc < (b.getD rr []).length then v
      else (b.getD r []).getD c d := by
  unfold setCell2D
  by_cases hrr : rr = r
  · subst hrr
    rw [List.getD_eq_getElem _ [] (by simpa [List.length_set] using hr),
      List.getElem_set_self]
    by_cases hcc : c = cc
    · subst hcc
      by_cases hcl : c < (b.getD rr []).length
      · rw [if_pos ⟨rfl, rfl, hcl⟩]
        rw [List.getD_eq_getElem _ d (by simpa [List.length_set] using hcl),
          List.getElem_set_self]
      · rw [if_neg (by tauto)]
        rw [List.getD_eq_default _ d (by simpa [List.length_set] using Nat.le_of_not_lt hcl),
          List.getD_eq_default _ d (Nat.le_of_not_lt hcl)]
    · rw [if_neg (by tauto)]
      by_cases hcl : c < (b.getD rr []).length
      · rw [List.getD_eq_getElem _ d (by simpa [List.length_set] using hcl),
          List.getElem_set_ne (fun h => hcc h.symm), ← List.getD_eq_getElem _ d hcl]
      · rw [List.getD_eq_default _ d (by simpa [List.length_set] using Nat.le_of_not_lt hcl),
          List.getD_eq_default _ d (Nat.le_of_not_lt hcl)]
  · rw [if_neg (by tauto)]
    rw [List.getD_eq_getElem _ [] (by simpa [List.length_set] using hr),
      List.getElem_set_ne hrr, ← List.getD_eq_getElem b [] hr]

theorem writeCell_getD {α : Type} (b : List (List α)) (cell : Nat)
    (x y : Int) (v d : α) (r c : Nat) (hr : r < b.length)
    (hc : c < (b.getD r []).length) :
    ((writeCell b cell x y v).getD r []).getD c d =
      if cell ≠ 0 ∧ (r : Int) = y ∧ (c : Int) = x ∧
          r < BOARD_HEIGHT ∧ c < BOARD_WIDTH then v
      else (b.getD r []).getD c d := by
  unfold writeCell
  split
  case isTrue h =>
    obtain ⟨hcell, hy0, hyH, hx0, hxW⟩ := h
    rw [setCell2D_getD b _ _ v d r c hr]
    by_cases hmatch : r = y.toNat ∧ c = x.toNat
    · obtain ⟨hry, hcx⟩ := hmatch
      have h1 : (r : Int) = y := by omega
      have h2 : (c : Int) = x := by omega
      have h3 : r < BOARD_HEIGHT := by simp only [BOARD_HEIGHT] at hyH ⊢; omega
      have h4 : c < BOARD_WIDTH := by simp only [BOARD_WIDTH] at hxW ⊢; omega
      rw [if_pos ⟨hry, hcx, by rw [← hry, ← hcx]; exact hc⟩,
        if_pos ⟨hcell, h1, h2, h3, h4⟩]
    · have hno : ¬(cell ≠ 0 ∧ (r : Int) = y ∧ (c : Int) = x ∧
          r < BOARD_HEIGHT ∧ c < BOARD_WIDTH) := by
        rintro ⟨_, h1, h2, _, _⟩
        exact hmatch ⟨by omega, by omega⟩
      rw [if_neg (by tauto), if_neg hno]
  case isFalse h =>
    rw [if_neg ?_]
    rintro ⟨hcell, hry, hcx, hrH, hcW⟩
    simp only [BOARD_HEIGHT, BOARD_WIDTH] at hrH hcW
    exact h ⟨hcell, by omega, by simp only [BOARD_HEIGHT]; omega, by omega,
      by simp only [BOARD_WIDTH]; omega⟩

theorem placeRowG_getD {α : Type} (row : List Nat) (b : List (List α))
    (x y : Int) (v d : α) (r c : Nat) (hr : r < b.length)
    (hc : c < (b.getD r []).length) :
    ((placeRowG b row x y v).getD r []).getD c d =
      if (∃ j, j < row.length ∧ row.getD j 0 ≠ 0 ∧ (c : Int) = x + j) ∧
          (r : Int) = y ∧ r < BOARD_HEIGHT ∧ c < BOARD_WIDTH then v
      else (b.getD r []).getD c d := by
  induction row generalizing b x with
  | nil =>
    rw [placeRowG, if_neg]
    rintro ⟨⟨j, hj, _, _⟩, _⟩
    simp at hj
  | cons cell rest ih =>
    have hr1 : r < (writeCell b cell x y v).length := by
      rw [writeCell_length]; exact hr
    have hc1 : c < ((writeCell b cell x y v).getD r []).length := by
      rw [writeCell_row_length]; exact hc
    rw [placeRowG, ih (writeCell b cell x y v) (x + 1) hr1 hc1,
      writeCell_getD b cell x y v d r c hr hc]
    by_cases h1 : (∃ j, j < rest.length ∧ rest.getD j 0 ≠ 0 ∧
        (c : Int) = (x + 1) + j) ∧ (r : Int) = y ∧ r < BOARD_HEIGHT ∧
        c < BOARD_WIDTH
    · obtain ⟨⟨j, hj, hne, hcx⟩, hR⟩ := h1
      rw [if_pos ⟨⟨j, hj, hne, hcx⟩, hR⟩, if_pos ?_]
      refine ⟨⟨j + 1, by simpa using hj, by simpa using hne, ?_⟩, hR⟩
      rw [hcx]; push_cast; ring
    · rw [if_neg h1]
      by_cases h2 : cell ≠ 0 ∧ (r : Int) = y ∧ (c : Int) = x ∧
          r < BOARD_HEIGHT ∧ c < BOARD_WIDTH
      · obtain ⟨hcell, hry, hcx, hH, hW⟩ := h2
        rw [if_pos ⟨hcell, hry, hcx, hH, hW⟩, if_pos ?_]
        exact ⟨⟨0, by simp, by simpa using hcell, by simpa using hcx⟩,
          hry, hH, hW⟩
      · rw [if_neg h2, if_neg ?_]
        rintro ⟨⟨j, hj, hne, hcx⟩, hry, hH, hW⟩
        match j with
        | 0 =>
          exact h2 ⟨by simpa using hne, hry, by simpa using hcx, hH, hW⟩
        | j + 1 =>
          refine h1 ⟨⟨j, by simpa using hj, by simpa using hne, ?_⟩, hry, hH, hW⟩
          rw [hcx]; push_cast; ring

theorem placeG_getD {α : Type} (shape : Shape) (b : List (List α))
    (x y : Int) (v d : α) (r c : Nat) (hr : r < b.length)
    (hc : c < (b.getD r []).length) :
    ((placeG b shape x y v).getD r []).getD c d =
      if (∃ i, i < shape.length ∧ (r : Int) = y + i ∧
            ∃ j, j < (shape.getD i []).length ∧
              (shape.getD i []).getD j 0 ≠ 0 ∧ (c : Int) = x + j) ∧
          r < BOARD_HEIGHT ∧ c < BOARD_WIDTH then v
      else (b.getD r []).getD c d := by
  induction shape generalizing b y with
  | nil =>
    rw [placeG, if_neg]
    rintro ⟨⟨i, hi, _⟩, _⟩
    simp at hi
  | cons row rest ih =>
    have hr1 : r < (placeRowG b row x y v).length := by
      rw [placeRowG_length]; exact hr
    have hc1 : c < ((placeRowG b row x y v).getD r []).length := by
      rw [placeRowG_row_length]; exact hc
    rw [placeG, ih (placeRowG b row x y v) (y + 1) hr1 hc1,
      placeRowG_getD row b x y v d r c hr hc]
    by_cases h1 : (∃ i, i < rest.length ∧ (r : Int) = (y + 1) + i ∧
        ∃ j, j < (rest.getD i []).length ∧ (rest.getD i []).getD j 0 ≠ 0 ∧
          (c : Int) = x + j) ∧ r < BOARD_HEIGHT ∧ c < BOARD_WIDTH
    · obtain ⟨⟨i, hi, hry, hj⟩, hH, hW⟩ := h1
      rw [if_pos ⟨⟨i, hi, hry, hj⟩, hH, hW⟩, if_pos ?_]
      refine ⟨⟨i + 1, by simpa using hi, ?_, by simpa using hj⟩, hH, hW⟩
      rw [hry]; push_cast; ring
    · rw [if_neg h1]
      by_cases h2 : (∃ j, j < row.length ∧ row.getD j 0 ≠ 0 ∧
          (c : Int) = x + j) ∧ (r : Int) = y ∧ r < BOARD_HEIGHT ∧
          c < BOARD_WIDTH
      · obtain ⟨⟨j, hj, hne, hcx⟩, hry, hH, hW⟩ := h2
        rw [if_pos ⟨⟨j, hj, hne, hcx⟩, hry, hH, hW⟩, if_pos ?_]
        exact ⟨⟨0, by simp, by simpa using hry,
          j, by simpa using hj, by simpa using hne, hcx⟩, hH, hW⟩
      · rw [if_neg h2, if_neg ?_]
        rintro ⟨⟨i, hi, hry, j, hj, hne, hcx⟩, hH, hW⟩
        match i with
        | 0 =>
          exact h2 ⟨⟨j, by simpa using hj, by simpa using hne, hcx⟩,
            by simpa using hry, hH, hW⟩
        | i + 1 =>
          refine h1 ⟨⟨i, by simpa using hi, ?_, j, by simpa using hj,
            by simpa using hne, hcx⟩, hH, hW⟩
          rw [hry]; push_cast; ring

/-- C10: Locking a piece into a board (`placePiece` of `script.js`,
and the merge loop of `lockPiece`/`hardDrop` of `part_000`) returns a new
board in which every cell not covered by an in-bounds occupied cell of the
piece holds exactly the value it held before the lock, and only covered
in-bounds cells are set to the piece's color token (`color + 1` in
`script.js`, the color class string in `part_000`).  The input board is a
separate value, untouched by construction in this pure embedding, matching
the sources' write-to-a-copy discipline. -/
theorem C10_lock_frame :
    (∀ (b : BoardJ) (piece : Shape) (x y : Int) (color : Nat) (r c : Nat),
      r < b.length → c < (b.getD r []).length →
      ((placePiece b piece x y color).getD r []).getD c 0 =
        if coveredCell piece x y r c then color + 1
        else (b.getD r []).getD c 0) ∧
    (∀ (b : BoardT) (shape : Shape) (color : String) (x y : Int) (r c : Nat),
      r < b.length → c < (b.getD r []).length →
      ((lockMerge b shape color x y).getD r []).getD c none =
        if coveredCell shape x y r c then some color
        else (b.getD r []).getD c none) := by
  constructor
  · intro b piece x y color r c hr hc
    exact placeG_getD piece b x y (color + 1) 0 r c hr hc
  · intro b shape color x y r c hr hc
    exact placeG_getD shape b x y (some color) none r c hr hc

/-- Concrete instance of `C10_lock_frame`: locking a single-cell piece at
`(2, 3)` into the empty boards colors exactly cell `(3, 2)` and leaves cell
`(0, 0)` empty. -/
theorem C10_lock_frame_witness :
    ((placePiece createEmptyBoardJ [[1]] 2 3 0).getD 3 []).getD 2 0 = 1 ∧
    ((lockMerge createEmptyBoard [[1]] "bg-red-500" 2 3).getD 0 []).getD 0
      none = none := by
  constructor
  · have hcov : coveredCell [[1]] 2 3 3 2 := by
      unfold coveredCell
      refine ⟨⟨0, by decide, by norm_num, 0, by simp, by simp, by norm_num⟩,
        ?_, ?_⟩
      · simp [BOARD_HEIGHT]
      · simp [BOARD_WIDTH]
    rw [C10_lock_frame.1 createEmptyBoardJ [[1]] 2 3 0 3 2 (by decide)
      (by decide)]
    rw [if_pos hcov]
  · have hncov : ¬ coveredCell [[1]] 2 3 0 0 := by
      unfold coveredCell
      rintro ⟨⟨i, hi, hry, j, hj, hne, hcx⟩, _, _⟩
      omega
    rw [C10_lock_frame.2 createEmptyBoard [[1]] "bg-red-500" 2 3 0 0
      (by decide) (by decide)]
    rw [if_neg hncov]
    decide

/-! ## Theorems about the state machines -/
theorem processClear_length (b : BoardT) (hb : b.length = BOARD_HEIGHT) :
    (processClear b).1.length = BOARD_HEIGHT := by
  have hk := List.countP_le_length (fun r => rowFullT r) (l := b)
  simp only [processClear, List.length_append, List.length_replicate,
    length_filter_not_fullT, hb]
  omega

theorem processBoardUpdate_board_length (s : Session) (b : BoardT)
    (np : Fin 7) (hb : b.length = BOARD_HEIGHT) :
    (processBoardUpdate s b np).board.length = BOARD_HEIGHT := by
  simp only [processBoardUpdate]
  split <;> simpa using processClear_length b hb

theorem step_board_length (s : Session) (c : Cmd)
    (h : s.board.length = BOARD_HEIGHT) :
    (step s c).board.length = BOARD_HEIGHT := by
  cases c with
  | move dx dy =>
    simp only [step, moveOp]
    split
    · exact h
    · split <;> exact h
  | rotateKey =>
    simp only [step, rotateOp]
    split <;> exact h
  | tick np =>
    simp only [step, dropOp]
    split
    · exact h
    · split
      · exact h
      · exact processBoardUpdate_board_length _ _ _
          (by rw [lockMerge, placeG_length]; exact h)
  | soft np =>
    simp only [step, softDropOp]
    split
    · exact h
    · split
      · exact h
      · show (dropOp s np).board.length = BOARD_HEIGHT
        simp only [dropOp]
        split
        · exact h
        · split
          · exact h
          · exact processBoardUpdate_board_length _ _ _
              (by rw [lockMerge, placeG_length]; exact h)
  | hard np =>
    simp only [step, hardDropOp]
    split
    · exact h
    · exact processBoardUpdate_board_length _ _ _
        (by rw [lockMerge, placeG_length]; exact h)
  | start p q =>
    simp only [step, startGame, initSession, createEmptyBoard,
      List.length_replicate]
  | pause =>
    simp only [step, togglePauseOp]
    split <;> exact h

theorem stepJS_board_length (s : GameStateJS) (c : CmdJS)
    (h : s.board.length = BOARD_HEIGHT) :
    (stepJS s c).board.length = BOARD_HEIGHT := by
  cases c with
  | left =>
    simp only [stepJS, moveLeftJS]
    split
    · exact h
    · split <;> exact h
  | right =>
    simp only [stepJS, moveRightJS]
    split
    · exact h
    · split <;> exact h
  | down np1 np2 =>
    simp only [stepJS, moveDownJS]
    split
    · exact h
    · split
      · exact h
      · split
        · exact h
        · show (clearLines _).1.length = BOARD_HEIGHT
          rw [clearLines_length, placePiece, placeG_length]
          exact h
  | rotateKey =>
    simp only [stepJS, rotateKeyJS]
    split
    · exact h
    · split <;> exact h
  | pause =>
    simp only [stepJS, togglePauseJS]
    split <;> exact h
  | reset c n =>
    simp only [stepJS, resetGameJS, createEmptyBoardJ, List.length_replicate]

/-- C7: For every state reachable from the initial session by any sequence
of commands and gravity ticks (moves, rotations, soft drops, hard drops,
locks, clears, spawns, pauses, resets), in either variant, the board has
exactly 20 rows: cleared rows are always replaced by empty rows at the top,
so the height never shrinks. -/
theorem C7_row_count_invariant :
    (∀ s : Session, Reachable s → s.board.length = BOARD_HEIGHT) ∧
    (∀ s : GameStateJS, ReachableJS s → s.board.length = BOARD_HEIGHT) := by
  constructor
  · intro s hs
    induction hs with
    | init p q =>
      simp [initSession, createEmptyBoard]
    | step s c _ ih => exact step_board_length s c ih
  · intro s hs
    induction hs with
    | init c n =>
      simp [resetGameJS, createEmptyBoardJ]
    | step s c _ ih => exact stepJS_board_length s c ih

/-- Concrete instance of `C7_row_count_invariant`: the state after a hard
drop from a fresh `part_000` session still has 20 rows. -/
theorem C7_row_count_invariant_witness :
    (step (step (initSession 0 1) (Cmd.start 0 1)) (Cmd.hard 2)).board.length
      = BOARD_HEIGHT := by
  exact C7_row_count_invariant.1 _
    (Reachable.step _ _ (Reachable.step _ _ (Reachable.init 0 1)))

theorem checkCollision_false_y_lt (px py : Int) (shape : Shape)
    (board : BoardT) (hocc : hasOccupied shape)
    (h : checkCollision px py shape board = false) :
    py < (BOARD_HEIGHT : Int) := by
  obtain ⟨ry, hry, rx, hrx, hne⟩ := hocc
  have hns : ¬ collidesSpec px py shape board := by
    rw [← checkCollision_eq_true_iff, h]
    simp
  have hnh : ¬ specHit board px py rx ry :=
    fun hs => hns ⟨ry, hry, rx, hrx, hne, hs⟩
  unfold specHit at hnh
  push_neg at hnh
  obtain ⟨_, _, h3, _⟩ := hnh
  omega

theorem dropLoop_spec (board : BoardT) (shape : Shape) (px : Int)
    (hocc : hasOccupied shape) :
    ∀ (fuel : Nat) (y : Int), dropFuel y ≤ fuel →
      y ≤ dropLoop board shape px fuel y ∧
      checkCollision px (dropLoop board shape px fuel y + 1) shape board
        = true ∧
      (∀ t : Int, y ≤ t → t < dropLoop board shape px fuel y →
        checkCollision px (t + 1) shape board = false) := by
  intro fuel
  induction fuel with
  | zero =>
    intro y hf
    simp only [dropFuel] at hf
    omega
  | succ fuel ih =>
    intro y hf
    rw [dropLoop]
    by_cases hc : checkCollision px (y + 1) shape board = true
    · rw [if_pos hc]
      exact ⟨le_refl y, hc, by intro t ht1 ht2; omega⟩
    · have hc' : checkCollision px (y + 1) shape board = false := by
        cases h : checkCollision px (y + 1) shape board with
        | true => exact absurd h hc
        | false => rfl
      rw [if_neg hc]
      have hy : y + 1 < (BOARD_HEIGHT : Int) :=
        checkCollision_false_y_lt px (y + 1) shape board hocc hc'
      have hf' : dropFuel (y + 1) ≤ fuel := by
        simp only [dropFuel, BOARD_HEIGHT] at hf hy ⊢
        omega
      obtain ⟨h1, h2, h3⟩ := ih (y + 1) hf'
      refine ⟨by omega, h2, ?_⟩
      intro t ht1 ht2
      rcases eq_or_lt_of_le ht1 with heq | hlt
      · rw [← heq]
        exact hc'
      · exact h3 t (by omega) ht2

/-- C9 (amended): the ghost projection's landing row always equals the hard
drop's final row — in the source they are the same collision-probing loop —
and, provided the piece has an occupied cell and does not collide at its
current position, both equal the current `y` plus the least offset
`dy ≥ 0` such that the piece collides at `y + dy + 1`; the landing position
itself does not collide, and no intermediate probe between `y` and the
landing row collides.  (The landing offset is the first such `dy` found
going down from the current position, not the maximal one.) -/
theorem C9_ghost_hard_drop_agreement (board : BoardT) (shape : Shape)
    (px py : Int) (hocc : hasOccupied shape)
    (hstart : checkCollision px py shape board = false) :
    ghostRowY board shape px py = hardDropFinalY board shape px py ∧
    py ≤ hardDropFinalY board shape px py ∧
    checkCollision px (hardDropFinalY board shape px py) shape board
      = false ∧
    checkCollision px (hardDropFinalY board shape px py + 1) shape board
      = true ∧
    (∀ t : Int, py ≤ t → t < hardDropFinalY board shape px py →
      checkCollision px (t + 1) shape board = false) := by
  have h := dropLoop_spec board shape px hocc (dropFuel py) py (le_refl _)
  obtain ⟨h1, h2, h3⟩ := h
  refine ⟨rfl, h1, ?_, h2, h3⟩
  rcases eq_or_lt_of_le h1 with heq | hlt
  · rw [hardDropFinalY, ← heq]
    exact hstart
  · have := h3 (hardDropFinalY board shape px py - 1) (by
      simp only [hardDropFinalY] at hlt ⊢
      omega) (by simp only [hardDropFinalY] at hlt ⊢; omega)
    simpa using this

/-- Concrete instance of `C9_ghost_hard_drop_agreement`: an I piece dropped
on the empty board from its spawn position. -/
theorem C9_ghost_hard_drop_agreement_witness :
    ghostRowY createEmptyBoard (tetroShape 0) 3 0 =
      hardDropFinalY createEmptyBoard (tetroShape 0) 3 0 ∧
    checkCollision 3 (hardDropFinalY createEmptyBoard (tetroShape 0) 3 0 + 1)
      (tetroShape 0) createEmptyBoard = true := by
  have h := C9_ghost_hard_drop_agreement createEmptyBoard (tetroShape 0) 3 0
    ⟨1, by decide, 0, by decide, by decide⟩ (by decide)
  exact ⟨h.1, h.2.2.2.1⟩

/-- C9 counterexample: with a floating obstacle, the hard-drop/ghost loop
lands a single-cell piece started at `(0, 0)` on row 4 — the *least*
`dy` with a collision below — while `dy = 19` also satisfies the claim's
condition "does not collide at `y + dy` but collides at `y + dy + 1`", so
the *maximal* such offset is not the landing row the code computes. -/
theorem C9_counterexample :
    hardDropFinalY bFloatT [[1]] 0 0 = 4 ∧
    ghostRowY bFloatT [[1]] 0 0 = 4 ∧
    checkCollision 0 19 [[1]] bFloatT = false ∧
    checkCollision 0 (19 + 1) [[1]] bFloatT = true ∧
    (4 : Int) ≠ 0 + 19 := by
  decide

/-! ## Collision characterisation (claim C1) -/
theorem cellHitJ_of_neg_y (board : BoardJ) (newX newY : Int) (h : newY < 0) :
    cellHitJ board newX newY =
      (newX < 0 || newX ≥ (BOARD_WIDTH : Int)) := by
  have h1 : ¬ (newY ≥ (BOARD_HEIGHT : Int)) := by
    simp only [BOARD_HEIGHT]; omega
  have h2 : ¬ (newY ≥ 0) := by omega
  simp [cellHitJ, h1, h2]

/-- C1 (amended): both collision predicates return a collision exactly when
some occupied shape cell has its absolute x-coordinate outside `[0, 10)`, or
its absolute y-coordinate at or below the floor (`≥ 20`), or — only when its
absolute y-coordinate is non-negative — lands on a non-empty board cell; and
for occupied cells with negative absolute y-coordinate, the floor bound and
the occupancy test never fire: only the horizontal bounds `x < 0` or
`x ≥ 10` can make such a cell collide. -/
theorem C1_collision_characterization :
    (∀ (px py : Int) (shape : Shape) (board : BoardT),
      checkCollision px py shape board = true ↔
        collidesSpec px py shape board) ∧
    (∀ (board : BoardJ) (piece : Shape) (x y : Int),
      canMove board piece x y = false ↔ collidesSpecJ x y piece board) ∧
    (∀ (board : BoardT) (newX newY : Int), newY < 0 →
      cellHitT board newX newY =
        (newX < 0 || newX ≥ (BOARD_WIDTH : Int))) ∧
    (∀ (board : BoardJ) (newX newY : Int), newY < 0 →
      cellHitJ board newX newY =
        (newX < 0 || newX ≥ (BOARD_WIDTH : Int))) :=
  ⟨checkCollision_eq_true_iff, canMove_eq_false_iff,
    cellHitT_of_neg_y, cellHitJ_of_neg_y⟩

/-- Concrete instance of `C1_collision_characterization`: at `y = -2` the
per-cell test reduces to the horizontal bounds, so a cell at in-range
`x = 3` above the board does not collide. -/
theorem C1_collision_characterization_witness :
    cellHitT createEmptyBoard 3 (-2) = false ∧
    cellHitJ createEmptyBoardJ 3 (-2) = false := by
  constructor
  · rw [C1_collision_characterization.2.2.1 createEmptyBoard 3 (-2)
      (by norm_num)]
    decide
  · rw [C1_collision_characterization.2.2.2 createEmptyBoardJ 3 (-2)
      (by norm_num)]
    decide

/-- C1 counterexample: the claim's clause "for every occupied cell whose
absolute y-coordinate is negative, neither bounds nor occupancy at that cell
ever causes a collision" is false: a single-cell shape at `(-1, -1)` has its
only occupied cell at negative absolute y, yet the horizontal bound fires
and both predicates report a collision. -/
theorem C1_counterexample :
    checkCollision (-1) (-1) [[1]] createEmptyBoard = true ∧
    cellHitT createEmptyBoard (-1) (-1) = true ∧
    ((-1 : Int) + (0 : Nat) < 0) ∧
    canMove createEmptyBoardJ [[1]] (-1) (-1) = false := by
  decide

/-! ## Scoring (claim C3) -/
/-- C3 (amended): in the `part_000` variant, every lock-and-clear event with
`linesCleared ∈ {0,…,4}` at level `L` adds exactly
`scoreMultipliers[linesCleared] * L` to the score — in particular zero for a
lock clearing zero rows.  In the `script.js` variant a lock that does not
end the game adds the flat, level-independent amount
`scoreIncreaseJS linesCleared`, which is `100/300/500` for exactly `1/2/3`
cleared rows and `800` otherwise — including `800` for a lock that clears
zero rows. -/
theorem C3_lock_scoring :
    (∀ (s : Session) (b : BoardT) (np : Fin 7),
      (processClear b).2 ≤ 4 →
      (processBoardUpdate s b np).score =
        s.score + scoreMultipliers.getD (processClear b).2 0 * s.level) ∧
    (∀ (s : GameStateJS) (np1 np2 : Fin 7),
      s.gameOver = false → s.isPaused = false →
      canMove s.board s.currentPiece s.posX (s.posY + 1) = false →
      canMove (clearLines (placePiece s.board s.currentPiece s.posX s.posY
        s.currentColor)).1 s.nextPiece 3 0 = true →
      (moveDownJS s np1 np2).score =
        s.score + scoreIncreaseJS (clearLines (placePiece s.board
          s.currentPiece s.posX s.posY s.currentColor)).2) := by
  constructor
  · intro s b np _
    simp only [processBoardUpdate]
    by_cases hlc : 0 < (processClear b).2
    · rw [if_pos hlc]
      split <;> rfl
    · have h0 : (processClear b).2 = 0 := by omega
      rw [if_neg hlc]
      have : scoreMultipliers.getD (processClear b).2 0 = 0 := by
        rw [h0]; rfl
      rw [this]
      split <;> simp
  · intro s np1 np2 hgo hp hdown hspawn
    simp only [moveDownJS, hgo, hp, hdown, hspawn]
    simp

/-- C3 counterexample: in `script.js`, a gravity step that locks a piece
clearing zero rows adds `800` to the score (the conditional chain's final
`else`), where the claim demands `multiplier[0] * level = 0`. -/
theorem C3_lock_scoring_counterexample :
    (moveDownJS cs3 0 0).score = 800 ∧
    (clearLines (placePiece cs3.board cs3.currentPiece cs3.posX cs3.posY
      cs3.currentColor)).2 = 0 ∧
    scoreMultipliers.getD 0 0 * cs3.level = 0 ∧
    (800 : Nat) ≠ 0 := by
  decide

/-- Concrete instance of `C3_lock_scoring`: a lock on the empty board
clears nothing and leaves the `part_000` score unchanged, while the same
kind of lock in `script.js` adds 800. -/
theorem C3_lock_scoring_witness :
    (processBoardUpdate (initSession 0 0) createEmptyBoard 0).score =
      (initSession 0 0).score +
        scoreMultipliers.getD (processClear createEmptyBoard).2 0 *
          (initSession 0 0).level ∧
    (moveDownJS cs3 0 0).score =
      cs3.score + scoreIncreaseJS (clearLines (placePiece cs3.board
        cs3.currentPiece cs3.posX cs3.posY cs3.currentColor)).2 := by
  constructor
  · exact C3_lock_scoring.1 (initSession 0 0) createEmptyBoard 0 (by decide)
  · exact C3_lock_scoring.2 cs3 0 0 (by decide) (by decide) (by decide)
      (by decide)

/-- C4 (amended): the `part_000` rotation tries the rotated shape at exactly
the candidate positions `x`, `x - 1`, `x + 1` in this order, accepting the
first that does not collide, and is a no-op when all three collide; in
particular a piece whose rotation collides at its current `x` *and at
`x - 1`* but fits at `x + 1` ends at `x + 1`.  The `script.js` rotation
handler instead tries only the unchanged position — it never moves the
piece, and is a no-op whenever the rotated shape collides in place. -/
theorem C4_wall_kick_order :
    (∀ (board : BoardT) (shape : Shape) (px py : Int),
      rotateAttempt board shape px py = kickSpec board shape px py) ∧
    (∀ s : GameStateJS,
      (rotateKeyJS s).posX = s.posX ∧ (rotateKeyJS s).posY = s.posY ∧
      (canMove s.board (rotatePiece s.currentPiece) s.posX s.posY = false →
        rotateKeyJS s = s)) := by
  constructor
  · intro board shape px py
    cases h1 : checkCollision px py (rotateMatrix shape) board with
    | false => simp [rotateAttempt, kickSpec, List.find?, h1]
    | true =>
      cases h2 : checkCollision (px - 1) py (rotateMatrix shape) board with
      | false => simp [rotateAttempt, kickSpec, List.find?, h1, h2]
      | true =>
        cases h3 : checkCollision (px + 1) py (rotateMatrix shape) board with
        | false => simp [rotateAttempt, kickSpec, List.find?, h1, h2, h3]
        | true => simp [rotateAttempt, kickSpec, List.find?, h1, h2, h3]
  · intro s
    refine ⟨?_, ?_, ?_⟩
    · simp only [rotateKeyJS]
      split
      · rfl
      · split <;> rfl
    · simp only [rotateKeyJS]
      split
      · rfl
      · split <;> rfl
    · intro hno
      simp only [rotateKeyJS, hno]
      split <;> simp

/-- C4 counterexample, both defects: (a) in `part_000` a piece whose
rotation collides at its current `x` but fits at *both* `x - 1` and `x + 1`
ends at `x - 1` — the claim's "ends at x+1, never at x-1" fails whenever
`x - 1` also fits; (b) in `script.js` a piece whose rotation collides in
place but fits at `x + 1` stays entirely unchanged instead of kicking. -/
theorem C4_wall_kick_order_counterexample :
    (rotateAttempt bT4 [[1]] 5 5 = ([[1]], 4) ∧
     checkCollision 6 5 [[1]] bT4 = false ∧
     ((4 : Int) ≠ 5 + 1)) ∧
    (rotateKeyJS cs4 = cs4 ∧
     canMove cs4.board (rotatePiece cs4.currentPiece) cs4.posX cs4.posY
       = false ∧
     canMove cs4.board (rotatePiece cs4.currentPiece) (cs4.posX + 1)
       cs4.posY = true) := by
  decide

/-- Concrete instance of `C4_wall_kick_order`: the cascade equals the
first-fit search on a concrete input, and the `script.js` handler is a
no-op on a colliding rotation. -/
theorem C4_wall_kick_order_witness :
    rotateAttempt createEmptyBoard (tetroShape 0) 3 0 =
      kickSpec createEmptyBoard (tetroShape 0) 3 0 ∧
    rotateKeyJS cs4 = cs4 := by
  constructor
  · exact C4_wall_kick_order.1 createEmptyBoard (tetroShape 0) 3 0
  · exact (C4_wall_kick_order.2 cs4).2.2 (by decide)

/-! ## Spawn collision and game over (claim C5) -/
/-- C5 (amended): in the `part_000` variant, when the piece spawned after a
lock-and-clear cycle collides with the freshly cleared board, the session
sets `gameOver` (clearing `gameStarted`), keeps the freshly cleared board
for display, does not replace the active or queued piece or the position,
and leaves score, lines and level at exactly the values the clear stage
computed — the spawn attempt changes none of them.  In the `script.js`
variant, the same situation sets `gameOver` but discards the lock and the
clear entirely: board, pieces, position, score, lines and level all revert
to their pre-lock values. -/
theorem C5_game_over_on_spawn_collision :
    (∀ (s : Session) (b : BoardT) (np : Fin 7),
      checkCollision (spawnX s.nextShape) 0 s.nextShape (processClear b).1
        = true →
      (processBoardUpdate s b np).board = (processClear b).1 ∧
      (processBoardUpdate s b np).gameOver = true ∧
      (processBoardUpdate s b np).gameStarted = false ∧
      (processBoardUpdate s b np).curShape = s.curShape ∧
      (processBoardUpdate s b np).curColor = s.curColor ∧
      (processBoardUpdate s b np).nextShape = s.nextShape ∧
      (processBoardUpdate s b np).nextColor = s.nextColor ∧
      (processBoardUpdate s b np).posX = s.posX ∧
      (processBoardUpdate s b np).posY = s.posY ∧
      (processBoardUpdate s b np).score =
        (if 0 < (processClear b).2 then
          s.score + scoreMultipliers.getD (processClear b).2 0 * s.level
         else s.score) ∧
      (processBoardUpdate s b np).lines =
        (if 0 < (processClear b).2 then s.lines + (processClear b).2
         else s.lines) ∧
      (processBoardUpdate s b np).level =
        (if 0 < (processClear b).2 then (s.lines + (processClear b).2) / 10 + 1
         else s.level)) ∧
    (∀ (s : GameStateJS) (np1 np2 : Fin 7),
      s.gameOver = false → s.isPaused = false →
      canMove s.board s.currentPiece s.posX (s.posY + 1) = false →
      canMove (clearLines (placePiece s.board s.currentPiece s.posX s.posY
        s.currentColor)).1 s.nextPiece 3 0 = false →
      moveDownJS s np1 np2 = { s with gameOver := true }) := by
  constructor
  · intro s b np hcol
    simp only [processBoardUpdate, hcol]
    by_cases hlc : 0 < (processClear b).2
    · rw [if_pos hlc]
      simp [if_pos hlc]
    · rw [if_neg hlc]
      simp [if_neg hlc]
  · intro s np1 np2 hgo hp hdown hspawn
    simp only [moveDownJS, hgo, hp, hdown, hspawn]
    simp

/-- C5 counterexample: in `script.js` the game-over path returns the
*pre-lock* board — the freshly locked-and-cleared board (which records the
piece that just locked at the bottom) is discarded, where the claim demands
it be kept for final display. -/
theorem C5_game_over_on_spawn_collision_counterexample :
    (moveDownJS cs5 0 0).gameOver = true ∧
    (moveDownJS cs5 0 0).board = cs5.board ∧
    (clearLines (placePiece cs5.board cs5.currentPiece cs5.posX cs5.posY
      cs5.currentColor)).1 ≠ cs5.board := by
  decide

/-- Concrete instance of `C5_game_over_on_spawn_collision` on both
variants. -/
theorem C5_game_over_on_spawn_collision_witness :
    (processBoardUpdate (initSession 0 0) bT5 0).gameOver = true ∧
    (processBoardUpdate (initSession 0 0) bT5 0).board =
      (processClear bT5).1 ∧
    moveDownJS cs5 0 0 = { cs5 with gameOver := true } := by
  have h := C5_game_over_on_spawn_collision.1 (initSession 0 0) bT5 0
    (by decide)
  exact ⟨h.2.1, h.1,
    C5_game_over_on_spawn_collision.2 cs5 0 0 (by decide) (by decide)
      (by decide) (by decide)⟩

/-! ## Spawn position (claim C8) -/
/-- C8 (amended): in the `part_000` variant, the piece spawned after a
lock-and-clear cycle is placed at `x = ⌊10/2⌋ - ⌊shapeWidth/2⌋`, `y = 0`;
the session-start spawn (initial state and `startGame`) instead uses the
fixed `x = ⌊10/2⌋ - 1`, `y = 0`, which matches the formula only for shapes
of width 2 or 3 and differs for the 4-wide I shape.  The `script.js`
variant spawns every piece — at session start and after locks — at the
fixed `x = 3`, `y = 0`, which matches the formula only for its 4-wide I
piece. -/
theorem C8_spawn_position :
    (∀ (s : Session) (b : BoardT) (np : Fin 7),
      checkCollision (spawnX s.nextShape) 0 s.nextShape (processClear b).1
        = false →
      (processBoardUpdate s b np).posX = spawnX s.nextShape ∧
      (processBoardUpdate s b np).posY = 0 ∧
      (processBoardUpdate s b np).curShape = s.nextShape) ∧
    (∀ p q : Fin 7,
      (startGame p q).posX = ((BOARD_WIDTH / 2 : Nat) : Int) - 1 ∧
      (startGame p q).posY = 0 ∧
      (initSession p q).posX = ((BOARD_WIDTH / 2 : Nat) : Int) - 1 ∧
      (initSession p q).posY = 0) ∧
    (∀ (s : GameStateJS) (np1 np2 : Fin 7),
      s.gameOver = false → s.isPaused = false →
      canMove s.board s.currentPiece s.posX (s.posY + 1) = false →
      canMove (clearLines (placePiece s.board s.currentPiece s.posX s.posY
        s.currentColor)).1 s.nextPiece 3 0 = true →
      (moveDownJS s np1 np2).posX = 3 ∧ (moveDownJS s np1 np2).posY = 0 ∧
      (moveDownJS s np1 np2).currentPiece = s.nextPiece) := by
  refine ⟨?_, ?_, ?_⟩
  · intro s b np hfree
    simp only [processBoardUpdate, hfree]
    split
    · simp_all
    · exact ⟨rfl, rfl, rfl⟩
  · intro p q
    exact ⟨rfl, rfl, rfl, rfl⟩
  · intro s np1 np2 hgo hp hdown hspawn
    simp only [moveDownJS, hgo, hp, hdown, hspawn]
    simp

/-- C8 counterexample: the `part_000` session-start spawn puts the 4-wide
I piece at `x = 4`, not at `⌊10/2⌋ - ⌊4/2⌋ = 3`; and the `script.js` spawn
after a lock puts the 2-wide O piece at `x = 3`, not at
`⌊10/2⌋ - ⌊2/2⌋ = 4`. -/
theorem C8_spawn_position_counterexample :
    ((startGame 0 0).posX = 4 ∧
     spawnX (startGame 0 0).curShape = 3 ∧
     ((4 : Int) ≠ 3)) ∧
    ((moveDownJS cs8 0 0).posX = 3 ∧
     spawnX (moveDownJS cs8 0 0).currentPiece = 4 ∧
     ((3 : Int) ≠ 4)) := by
  decide

/-- Concrete instance of `C8_spawn_position`: the after-lock spawn of the
I piece on the empty `part_000` board lands at the formula position, and the
`script.js` after-lock spawn lands at `(3, 0)`. -/
theorem C8_spawn_position_witness :
    (processBoardUpdate (initSession 0 0) createEmptyBoard 0).posX =
      spawnX (initSession 0 0).nextShape ∧
    (processBoardUpdate (initSession 0 0) createEmptyBoard 0).posY = 0 ∧
    (moveDownJS cs8 0 0).posX = 3 := by
  have h := C8_spawn_position.1 (initSession 0 0) createEmptyBoard 0
    (by decide)
  exact ⟨h.1, h.2.1,
    (C8_spawn_position.2.2 cs8 0 0 (by decide) (by decide) (by decide)
      (by decide)).1⟩

end Tetris

